import Mathlib

/-!
Verification of the gonja render-time core: the Context scope chain, the
Environment registries, the Renderer's Output-node rendering, and the
Import/FromImport statements, embedded shallowly from the Go sources.
-/

namespace Gonja

/-- Lookup in an association-list model of Go's `map[string]V`: first match wins
(keys of a Go map are unique, so orders agree). -/
def mapGet {α : Type} : List (String × α) → String → Option α
  | [], _ => none
  | kv :: rest, k => if kv.1 = k then some kv.2 else mapGet rest k

/-- Go's `m[k] = v`: replace the existing entry for `k` in place, or append. -/
def mapSet {α : Type} : List (String × α) → String → α → List (String × α)
  | [], k, v => [(k, v)]
  | kv :: rest, k, v => if kv.1 = k then (k, v) :: rest else kv :: mapSet rest k v

/-- `Option` fallback, matching "local frame first, then the parent chain". -/
def optOr {α : Type} : Option α → Option α → Option α
  | some v, _ => some v
  | none, b => b

/-- The Context scope chain: a local frame (Go: `data map[string]interface{}`)
and an optional parent frame (Go: `parent *Context`, `nil` at the root). -/
inductive Context (α : Type) : Type where
  | mk : List (String × α) → Option (Context α) → Context α

/-- The local frame of the context (Go field `data`). -/
def Context.data {α : Type} : Context α → List (String × α)
  | .mk d _ => d

/-- The parent frame of the context (Go field `parent`, `none` = `nil`). -/
def Context.parent {α : Type} : Context α → Option (Context α)
  | .mk _ p => p

/-- Go `NewContext(data)`. -/
def NewContext {α : Type} (data : List (String × α)) : Context α := .mk data none

/-- Go `EmptyContext()`. -/
def EmptyContext {α : Type} : Context α := .mk [] none

/-- Go `Context.Has`: check the local frame; if absent and a parent exists,
ask the parent. -/
def Context.has {α : Type} : Context α → String → Bool
  | .mk d none, name => (mapGet d name).isSome
  | .mk d (some p), name =>
    if (mapGet d name).isSome then (mapGet d name).isSome else p.has name

/-- Go `Context.Get`: the local frame first, else the parent chain, else
`(nil, false)` — modelled as `none`. -/
def Context.get {α : Type} : Context α → String → Option α
  | .mk d none, name => mapGet d name
  | .mk d (some p), name =>
    match mapGet d name with
    | some v => some v
    | none => p.get name

/-- Go `Context.Set`: write into the local frame only. -/
def Context.set {α : Type} : Context α → String → α → Context α
  | .mk d p, name, value => .mk (mapSet d name value) p

/-- Go `Context.Inherit`: a fresh empty local frame whose parent is the
receiver. -/
def Context.inherit {α : Type} (ctx : Context α) : Context α :=
  .mk [] (some ctx)

/-- Go `Context.Update`: copy every entry of `other`'s local frame into the
receiver's local frame (`for k, v := range other.data { ctx.data[k] = v }`). -/
def Context.update {α : Type} (ctx other : Context α) : Context α :=
  match ctx with
  | .mk d p => .mk (other.data.foldl (fun acc kv => mapSet acc kv.1 kv.2) d) p

/-- The chain of local frames from the receiver up to the root. -/
def Context.frames {α : Type} : Context α → List (List (String × α))
  | .mk d none => [d]
  | .mk d (some p) => d :: p.frames

/-- First-match lookup over a list of frames. -/
def findFrames {α : Type} : List (List (String × α)) → String → Option α
  | [], _ => none
  | f :: rest, k =>
    match mapGet f k with
    | some v => some v
    | none => findFrames rest k

/-- Modelled from the spec: the Value contract consumed by the renderer
(`exec.Value` is outside the given sources) — a tagged evaluation result
exposing `IsError`, `IsNil`, `IsTrue`, `IsString`, the `Safe` flag,
`Escaped()` and `String()`. -/
structure Value : Type where
  isError : Bool
  isNil : Bool
  isTrue : Bool
  isString : Bool
  safe : Bool
  escaped : String
  str : String
deriving DecidableEq

/-- An expression AST node, reduced to the two observations the renderer
makes for diagnostics: its source line (`Position().Line`) and its textual
form (`String()`). -/
structure Expr : Type where
  text : String
  line : Nat
deriving DecidableEq

/-- Modelled from the spec: `config.Config` (outside the given sources) — a
cloneable settings object with at least the `AutoEscape` flag and a deep-copy
`Inherit()`. The `id` field models object identity so that the deep copy is
distinguishable from reference sharing; `Inherit` receives the fresh identity
from its caller. -/
structure Config : Type where
  id : Nat
  autoEscape : Bool

/-- Go `config.Inherit()`: a deep copy — same settings, new object. -/
def Config.inheritCfg (c : Config) (fresh : Nat) : Config :=
  { id := fresh, autoEscape := c.autoEscape }

/-- Go `FilterSet`: `map[string]FilterFunction`, generic over the opaque
filter-function type. -/
def FilterSet (φ : Type) : Type := List (String × φ)

/-- Go `FilterSet.Exists`. -/
def FilterSet.exists? {φ : Type} (fs : FilterSet φ) (name : String) : Bool :=
  (mapGet fs name).isSome

/-- Go `FilterSet.Register`: error if the name is registered, else add.
The receiver is returned alongside the possible error (a mutated map in Go). -/
def FilterSet.register {φ : Type} (fs : FilterSet φ) (name : String) (fn : φ) :
    FilterSet φ × Option String :=
  if fs.exists? name then
    (fs, some ("filter with name '" ++ name ++ "' is already registered"))
  else
    (mapSet fs name fn, none)

/-- Go `FilterSet.Replace`: error if the name is not registered, else rebind. -/
def FilterSet.replace {φ : Type} (fs : FilterSet φ) (name : String) (fn : φ) :
    FilterSet φ × Option String :=
  if !fs.exists? name then
    (fs, some ("filter with name '" ++ name ++ "' does not exist (therefore cannot be overridden)"))
  else
    (mapSet fs name fn, none)

/-- Go `FilterSet.Update`: unconditional merge, `other` wins. -/
def FilterSet.update {φ : Type} (fs other : FilterSet φ) : FilterSet φ :=
  other.foldl (fun acc kv => mapSet acc kv.1 kv.2) fs

/-- Go `StatementSet`: `map[string]parser.StatementParser`, generic over the
opaque statement-handler type. -/
def StatementSet (σ : Type) : Type := List (String × σ)

/-- Go `StatementSet.Exists`. -/
def StatementSet.exists? {σ : Type} (ss : StatementSet σ) (name : String) : Bool :=
  (mapGet ss name).isSome

/-- Go `StatementSet.Register`. -/
def StatementSet.register {σ : Type} (ss : StatementSet σ) (name : String) (fn : σ) :
    StatementSet σ × Option String :=
  if ss.exists? name then
    (ss, some ("Statement '" ++ name ++ "' is already registered"))
  else
    (mapSet ss name fn, none)

/-- Go `StatementSet.Replace`. -/
def StatementSet.replace {σ : Type} (ss : StatementSet σ) (name : String) (fn : σ) :
    StatementSet σ × Option String :=
  if !ss.exists? name then
    (ss, some ("Statement '" ++ name ++ "' does not exist (therefore cannot be overridden)"))
  else
    (mapSet ss name fn, none)

/-- Go `StatementSet.Update`. -/
def StatementSet.update {σ : Type} (ss other : StatementSet σ) : StatementSet σ :=
  other.foldl (fun acc kv => mapSet acc kv.1 kv.2) ss

/-- Go `TestSet`: `map[string]TestFunction`, generic over the opaque
test-function type. -/
def TestSet (τ : Type) : Type := List (String × τ)

/-- Go `TestSet.Exists`. -/
def TestSet.exists? {τ : Type} (ts : TestSet τ) (name : String) : Bool :=
  (mapGet ts name).isSome

/-- Go `TestSet.Register`. -/
def TestSet.register {τ : Type} (ts : TestSet τ) (name : String) (fn : τ) :
    TestSet τ × Option String :=
  if ts.exists? name then
    (ts, some ("test with name '" ++ name ++ "' is already registered"))
  else
    (mapSet ts name fn, none)

/-- Go `TestSet.Replace`. -/
def TestSet.replace {τ : Type} (ts : TestSet τ) (name : String) (fn : τ) :
    TestSet τ × Option String :=
  if !ts.exists? name then
    (ts, some ("test with name '" ++ name ++ "' does not exist (therefore cannot be overridden)"))
  else
    (mapSet ts name fn, none)

/-- Go `TestSet.Update`. -/
def TestSet.update {τ : Type} (ts other : TestSet τ) : TestSet τ :=
  other.foldl (fun acc kv => mapSet acc kv.1 kv.2) ts

/-- The values a render-time Context can hold, as far as the given sources
bind them: pre-existing data (opaque), a single wrapped macro
(`exec.Macro`, opaque handle), the macro table bound by ImportStmt, and the
`Self` renderer wrapper set by NewRenderer (`exec.Self` is outside the given
sources, so it is an opaque tag). -/
inductive CtxVal : Type where
  | base : Nat → CtxVal
  | macroFn : Nat → CtxVal
  | macroTable : List (String × Nat) → CtxVal
  | selfRef : CtxVal
deriving DecidableEq

/-- Go `exec.Environment`: the three capability registries plus the active
Context. Capability values are opaque handles. -/
structure Environment : Type where
  filters : FilterSet Nat
  statements : StatementSet Nat
  tests : TestSet Nat
  context : Context CtxVal

/-- Modelled from the spec: `exec.Template` (outside the given sources) — an
opaque collaborator holding a parsed AST root, an optional parent link and a
macro table (name → macro AST node, both opaque handles). -/
structure Template : Type where
  root : Nat
  parentRef : Option Nat
  macros : List (String × Nat)
deriving DecidableEq

/-- Go `exec.Renderer`: configuration, environment, loader, template, root
node and output sink. Loader, root node and sink are opaque handles, so
handle equality models reference sharing. -/
structure Renderer : Type where
  config : Config
  environment : Environment
  loader : Nat
  template : Template
  rootNode : Nat
  output : Nat

/-- Go `NewRenderer`: build the renderer with an inherited configuration and
the caller's environment, then mutate that environment's active Context by
binding `"self"` to a wrapper of the new renderer. `fresh` is the identity
of the configuration copy. -/
def NewRenderer (environment : Environment) (output : Nat) (cfg : Config)
    (loader : Nat) (template : Template) (fresh : Nat) : Renderer :=
  let r : Renderer :=
    { config := cfg.inheritCfg fresh
      environment := environment
      loader := loader
      template := template
      rootNode := template.root
      output := output }
  { r with
    environment :=
      { r.environment with
        context := r.environment.context.set "self" CtxVal.selfRef } }

/-- Go `Renderer.Inherit`: deep-clone the configuration, fork the Context via
`Context.Inherit`, share everything else by reference. -/
def Renderer.inheritR (r : Renderer) (fresh : Nat) : Renderer :=
  { config := r.config.inheritCfg fresh
    environment :=
      { context := r.environment.context.inherit
        tests := r.environment.tests
        filters := r.environment.filters
        statements := r.environment.statements }
    template := r.template
    rootNode := r.rootNode
    output := r.output
    loader := r.loader }

/-- A `nodes.Output` node: the interpolated expression, an optional condition
and an optional alternative. -/
structure OutputNode : Type where
  expression : Expr
  condition : Option Expr
  alternative : Option Expr

/-- The wrapped errors `Renderer.Visit` produces on an Output node, kept
structured: each carries the source line and textual form it names, plus the
wrapped inner error Value. -/
inductive RenderError : Type where
  | conditionError : Nat → String → Value → RenderError
  | boolConditionError : Nat → String → Value → RenderError
  | expressionError : Nat → String → Value → RenderError

/-- The tail of the Output case of `Renderer.Visit` (renderer.go:91-101):
check the chosen value for an error (the wrap names `n.Expression` even when
the value came from the alternative), then write either the escaped or the
raw string form. The returned string is what is appended to the sink. -/
def writeValue (cfg : Config) (value : Value) (n : OutputNode) :
    Except RenderError String :=
  if value.isError then
    .error (.expressionError n.expression.line n.expression.text value)
  else if cfg.autoEscape && value.isString && !value.safe then
    .ok value.escaped
  else
    .ok value.str

/-- The `nodes.Output` case of `Renderer.Visit` (renderer.go:70-101), with
expression evaluation abstracted as `eval`. `.ok s` means `s` was written to
the Output sink and no error returned; `.ok ""` in the no-alternative branch
is the early `return nil, nil`. -/
def visitOutput (cfg : Config) (eval : Expr → Value) (n : OutputNode) :
    Except RenderError String :=
  match n.condition with
  | some cond =>
    let condition := eval cond
    if condition.isError then
      .error (.conditionError cond.line cond.text condition)
    else if !condition.isNil && condition.isTrue then
      writeValue cfg (eval n.expression) n
    else if condition.isNil || !condition.isTrue then
      match n.alternative with
      | some alt => writeValue cfg (eval alt) n
      | none => .ok ""
    else
      .error (.boolConditionError cond.line cond.text condition)
  | none => writeValue cfg (eval n.expression) n

/-- The expression whose value the Output case writes, following exactly the
branch structure of `visitOutput`: `none` when an error stops the choice or
when a failed condition has no alternative. -/
def chosenExpr (eval : Expr → Value) (n : OutputNode) : Option Expr :=
  match n.condition with
  | some cond =>
    let condition := eval cond
    if condition.isError then none
    else if !condition.isNil && condition.isTrue then some n.expression
    else if condition.isNil || !condition.isTrue then
      match n.alternative with
      | some alt => some alt
      | none => none
    else none
  | none => some n.expression

/-- The external collaborators of the import statements, as oracles:
expression evaluation, `Loader.Inherit`, `exec.NewTemplate` and
`exec.MacroNodeToFunc`. Loader and macro handles are opaque `Nat`s;
`macroNodeToFunc` takes an `Option` because Go's `imported[name]` yields a
nil node for a missing key. -/
structure ImportWorld : Type where
  eval : Expr → Value
  loaderInherit : Nat → String → Except String Nat
  newTemplate : String → Config → Nat → Except String Template
  macroNodeToFunc : Option Nat → Except String Nat

/-- Go `ImportStmt` (location elided; it only feeds diagnostics). -/
structure ImportStmt : Type where
  filenameExpression : Expr
  asName : String
  withContext : Bool

/-- Go `FromImportStmt`: `As` maps alias → macro name (a Go map; its keys are
unique). -/
structure FromImportStmt : Type where
  filenameExpression : Expr
  withContext : Bool
  asMap : List (String × String)

/-- The errors the import statements return, kept structured with the data
each Go message names. -/
inductive StmtError : Type where
  | filenameError : Value → StmtError
  | loaderError : String → StmtError
  | templateError : String → String → StmtError
  | macroError : String → String → StmtError
deriving DecidableEq

/-- The macro-wrapping loop of `ImportStmt.Execute`: wrap every macro of the
loaded template, stopping at the first failure (before anything is bound). -/
def wrapMacros (w : ImportWorld) :
    List (String × Nat) → Except (String × String) (List (String × Nat))
  | [] => .ok []
  | (name, node) :: rest =>
    match w.macroNodeToFunc (some node) with
    | .error e => .error (name, e)
    | .ok fn =>
      match wrapMacros w rest with
      | .error e => .error e
      | .ok ms => .ok ((name, fn) :: ms)

/-- Go `ImportStmt.Execute`: evaluate the filename, derive a loader, load the
template, wrap all its macros, and only then bind the whole table under the
alias. Returns the possible error together with the renderer's Context after
the call (the Context is mutated in place in Go). -/
def ImportStmt.execute (w : ImportWorld) (stmt : ImportStmt) (r : Renderer) :
    Option StmtError × Context CtxVal :=
  let ctx := r.environment.context
  let filenameValue := w.eval stmt.filenameExpression
  if filenameValue.isError then
    (some (.filenameError filenameValue), ctx)
  else
    let filename := filenameValue.str
    match w.loaderInherit r.loader filename with
    | .error _ => (some (.loaderError filename), ctx)
    | .ok loader =>
      match w.newTemplate filename r.config loader with
      | .error e => (some (.templateError filename e), ctx)
      | .ok template =>
        match wrapMacros w template.macros with
        | .error ne => (some (.macroError ne.1 ne.2), ctx)
        | .ok macros => (none, ctx.set stmt.asName (.macroTable macros))

/-- The binding loop of `FromImportStmt.Execute`: for each alias → name pair,
look the macro up in the loaded table (a missing key yields Go's nil), wrap
it, and on success bind it at once — before the remaining pairs are
processed. -/
def fromImportLoop (w : ImportWorld) (imported : List (String × Nat)) :
    List (String × String) → Context CtxVal → Option StmtError × Context CtxVal
  | [], ctx => (none, ctx)
  | (al, name) :: rest, ctx =>
    let node := mapGet imported name
    match w.macroNodeToFunc node with
    | .error e => (some (.macroError name e), ctx)
    | .ok fn => fromImportLoop w imported rest (ctx.set al (.macroFn fn))

/-- Go `FromImportStmt.Execute`: the same resolve phases as ImportStmt, then
the per-macro binding loop. -/
def FromImportStmt.execute (w : ImportWorld) (stmt : FromImportStmt) (r : Renderer) :
    Option StmtError × Context CtxVal :=
  let ctx := r.environment.context
  let filenameValue := w.eval stmt.filenameExpression
  if filenameValue.isError then
    (some (.filenameError filenameValue), ctx)
  else
    let filename := filenameValue.str
    match w.loaderInherit r.loader filename with
    | .error _ => (some (.loaderError filename), ctx)
    | .ok loader =>
      match w.newTemplate filename r.config loader with
      | .error e => (some (.templateError filename e), ctx)
      | .ok template =>
        fromImportLoop w template.macros stmt.asMap ctx


/-- Fixture: a template with a single macro `foo`, used by concrete runs. -/
def tplFx : Template := { root := 0, parentRef := none, macros := [("foo", 7)] }

/-- Fixture: a renderer over an empty root Context. -/
def rendererFx : Renderer :=
  { config := { id := 0, autoEscape := false }
    environment := { filters := [], statements := [], tests := [], context := .mk [] none }
    loader := 0
    template := tplFx
    rootNode := 0
    output := 0 }

/-- Fixture: collaborators for which every phase of an import succeeds; a
macro node `n` wraps to the callable `n + 100`. -/
def okWorld : ImportWorld :=
  { eval := fun _ => { isError := false, isNil := false, isTrue := true,
                       isString := true, safe := false, escaped := "lib", str := "lib" }
    loaderInherit := fun _ _ => .ok 0
    newTemplate := fun _ _ _ => .ok tplFx
    macroNodeToFunc := fun node =>
      match node with
      | some n => .ok (n + 100)
      | none => .error "nil macro node" }

/-- Fixture: collaborators for which filename evaluation yields an error
Value, so every import fails in the first phase. -/
def errWorld : ImportWorld :=
  { eval := fun _ => { isError := true, isNil := false, isTrue := false,
                       isString := false, safe := false, escaped := "", str := "boom" }
    loaderInherit := fun _ _ => .ok 0
    newTemplate := fun _ _ _ => .error "no template"
    macroNodeToFunc := fun _ => .error "no macro" }

/-- Fixture: collaborators whose template has macros `m1`, `m2`; wrapping `m1`
succeeds (handle 10) and wrapping `m2` fails — the partial-binding scenario. -/
def cexWorld : ImportWorld :=
  { eval := fun _ => { isError := false, isNil := false, isTrue := true,
                       isString := true, safe := false, escaped := "lib", str := "lib" }
    loaderInherit := fun _ _ => .ok 0
    newTemplate := fun _ _ _ => .ok { root := 0, parentRef := none, macros := [("m1", 1), ("m2", 2)] }
    macroNodeToFunc := fun node =>
      match node with
      | some 1 => .ok 10
      | _ => .error "wrap failure" }

/-- Fixture: `{% import "lib" as L %}`. -/
def impStmtFx : ImportStmt :=
  { filenameExpression := { text := "lib", line := 1 }, asName := "L", withContext := false }

/-- Fixture: `{% from "lib" import foo as bar %}`. -/
def fromStmtFx : FromImportStmt :=
  { filenameExpression := { text := "lib", line := 1 }, withContext := false
    asMap := [("bar", "foo")] }

/-- Fixture: `{% from "lib" import m1 as a, m2 as b %}`. -/
def fromStmtCex : FromImportStmt :=
  { filenameExpression := { text := "lib", line := 1 }, withContext := false
    asMap := [("a", "m1"), ("b", "m2")] }


/-! ## Theorems -/

theorem mapGet_mapSet_self {α : Type} (m : List (String × α)) (k : String) (v : α) :
    mapGet (mapSet m k v) k = some v := by
  induction m with
  | nil => simp [mapSet, mapGet]
  | cons kv rest ih =>
    by_cases h : kv.1 = k
    · simp [mapSet, mapGet, h]
    · simp [mapSet, mapGet, h, ih]

theorem mapGet_mapSet_ne {α : Type} (m : List (String × α)) (k k' : String) (v : α)
    (h : k' ≠ k) : mapGet (mapSet m k v) k' = mapGet m k' := by
  have hkk : ¬(k = k') := fun hc => h hc.symm
  induction m with
  | nil => simp [mapSet, mapGet, hkk]
  | cons kv rest ih =>
    by_cases hk : kv.1 = k
    · subst hk
      simp [mapSet, mapGet, hkk]
    · by_cases hk' : kv.1 = k'
      · simp [mapSet, mapGet, hk, hk', h]
      · simp [mapSet, mapGet, hk, hk', ih]

theorem mapGet_eq_none_of_not_mem {α : Type} (m : List (String × α)) (k : String)
    (h : k ∉ m.map Prod.fst) : mapGet m k = none := by
  induction m with
  | nil => rfl
  | cons kv rest ih =>
    simp only [List.map_cons, List.mem_cons] at h
    push_neg at h
    simp [mapGet, Ne.symm h.1, ih h.2]

/-- Folding `mapSet` over the entries of a (duplicate-free) map `l` starting
from `m` — the shape of every Go `for k, v := range l { m[k] = v }` loop —
yields the union with `l` winning. -/
theorem mapGet_foldl_mapSet {α : Type} (l : List (String × α))
    (hnd : (l.map Prod.fst).Nodup) (m : List (String × α)) (k : String) :
    mapGet (l.foldl (fun acc kv => mapSet acc kv.1 kv.2) m) k =
      optOr (mapGet l k) (mapGet m k) := by
  induction l generalizing m with
  | nil => simp [mapGet, optOr]
  | cons kv rest ih =>
    simp only [List.map_cons, List.nodup_cons] at hnd
    rw [List.foldl_cons, ih hnd.2]
    by_cases h : kv.1 = k
    · subst h
      rw [mapGet_eq_none_of_not_mem rest kv.1 hnd.1]
      simp [mapGet, optOr, mapGet_mapSet_self]
    · simp only [mapGet, h, if_false]
      cases hr : mapGet rest k with
      | some v => simp [optOr]
      | none => simp [optOr, mapGet_mapSet_ne m kv.1 k kv.2 (fun hc => h hc.symm)]

theorem Context.get_eq_findFrames {α : Type} :
    (c : Context α) → (name : String) → c.get name = findFrames c.frames name
  | .mk d none, name => by
    simp only [Context.get, Context.frames, findFrames]
    cases mapGet d name <;> rfl
  | .mk d (some p), name => by
    simp only [Context.get, Context.frames, findFrames]
    cases mapGet d name with
    | some v => rfl
    | none => simpa using Context.get_eq_findFrames p name

theorem Context.has_eq_isSome_get {α : Type} :
    (c : Context α) → (name : String) → c.has name = (c.get name).isSome
  | .mk d none, name => by simp [Context.has, Context.get]
  | .mk d (some p), name => by
    simp only [Context.has, Context.get]
    cases hd : mapGet d name with
    | some v => simp
    | none => simpa using Context.has_eq_isSome_get p name

theorem findFrames_eq_none {α : Type} (fs : List (List (String × α))) (name : String)
    (h : ∀ f ∈ fs, mapGet f name = none) : findFrames fs name = none := by
  induction fs with
  | nil => rfl
  | cons f rest ih =>
    simp only [findFrames, h f (by simp)]
    exact ih fun g hg => h g (by simp [hg])


theorem Context.data_set {α : Type} (c : Context α) (k : String) (v : α) :
    (c.set k v).data = mapSet c.data k v := by
  cases c
  rfl

theorem Context.parent_set {α : Type} (c : Context α) (k : String) (v : α) :
    (c.set k v).parent = c.parent := by
  cases c
  rfl

theorem Context.get_set_self {α : Type} (c : Context α) (k : String) (v : α) :
    (c.set k v).get k = some v := by
  cases c with
  | mk d p =>
    cases p with
    | none => simp [Context.set, Context.get, mapGet_mapSet_self]
    | some par => simp [Context.set, Context.get, mapGet_mapSet_self]

theorem Context.get_of_mem_local {α : Type} (c : Context α) (x : String) (v : α)
    (h : mapGet c.data x = some v) : c.get x = some v := by
  cases c with
  | mk d p =>
    simp only [Context.data] at h
    cases p with
    | none => simpa [Context.get] using h
    | some par => simp [Context.get, h]

/-- C4: `Set` mutates only the local frame of the receiver: after
`c2 := c.Inherit()` and `c2.Set(x, v2)`, `c2.Get(x)` returns `v2` while the
parent chain still hangs off the untouched `c`, so `c.Get(x)` and `p`'s
binding for `x` are unchanged — a child shadows but never mutates an
ancestor binding. -/
theorem claim_C4_set_shadows_ancestors {α : Type} (c p : Context α) (x : String)
    (v1 v2 : α) (hp : c.parent = some p) (hbind : mapGet p.data x = some v1)
    (hlocal : mapGet c.data x = none) :
    ((c.inherit.set x v2).get x = some v2)
    ∧ ((c.inherit.set x v2).parent = some c)
    ∧ (c.get x = some v1)
    ∧ (mapGet p.data x = some v1) := by
  refine ⟨Context.get_set_self _ x v2, by cases c; rfl, ?_, hbind⟩
  cases c with
  | mk d pp =>
    simp only [Context.parent] at hp
    subst hp
    simp only [Context.data] at hlocal
    simp only [Context.get, hlocal]
    exact Context.get_of_mem_local p x v1 hbind

/-- Witness for C4 at a concrete two-level chain with `x = 1` at the parent. -/
theorem claim_C4_witness :
    (((Context.mk [] (some (Context.mk [("x", (1 : Nat))] none))).inherit.set "x" 2).get "x"
      = some 2)
    ∧ (((Context.mk [] (some (Context.mk [("x", (1 : Nat))] none))).inherit.set "x" 2).parent
      = some (Context.mk [] (some (Context.mk [("x", (1 : Nat))] none))))
    ∧ ((Context.mk [] (some (Context.mk [("x", (1 : Nat))] none))).get "x" = some 1) := by
  have h := claim_C4_set_shadows_ancestors
    (Context.mk [] (some (Context.mk [("x", (1 : Nat))] none)))
    (Context.mk [("x", (1 : Nat))] none) "x" 1 2 rfl (by decide) (by decide)
  exact ⟨h.1, h.2.1, h.2.2.1⟩

/-- C5: lookup resolves local frame first, then the ancestor chain, first
match wins (`Get` agrees with first-match over the frame list and `Has` with
`Get`); a name absent from every frame yields not-found, never a default. -/
theorem claim_C5_lookup_chain {α : Type} (c : Context α) (name : String) :
    (c.get name = findFrames c.frames name)
    ∧ (c.has name = (c.get name).isSome)
    ∧ ((∀ f ∈ c.frames, mapGet f name = none) →
        c.get name = none ∧ c.has name = false) := by
  refine ⟨Context.get_eq_findFrames c name, Context.has_eq_isSome_get c name, ?_⟩
  intro h
  have hg : c.get name = none := by
    rw [Context.get_eq_findFrames]
    exact findFrames_eq_none _ _ h
  exact ⟨hg, by rw [Context.has_eq_isSome_get, hg]; rfl⟩

/-- Witness for C5 at a 3-level chain: `r` bound only at the root is found
from the leaf; `z`, absent everywhere, yields not-found for both `Get` and
`Has`. -/
theorem claim_C5_witness :
    ((Context.mk ([] : List (String × Nat))
        (some (Context.mk [] (some (Context.mk [("r", 5)] none))))).get "r" = some 5)
    ∧ ((Context.mk ([] : List (String × Nat))
        (some (Context.mk [] (some (Context.mk [("r", 5)] none))))).get "z" = none)
    ∧ ((Context.mk ([] : List (String × Nat))
        (some (Context.mk [] (some (Context.mk [("r", 5)] none))))).has "z" = false) := by
  have h := claim_C5_lookup_chain
    (Context.mk ([] : List (String × Nat))
      (some (Context.mk [] (some (Context.mk [("r", 5)] none))))) "r"
  have h2 := claim_C5_lookup_chain
    (Context.mk ([] : List (String × Nat))
      (some (Context.mk [] (some (Context.mk [("r", 5)] none))))) "z"
  refine ⟨?_, (h2.2.2 (by decide)).1, (h2.2.2 (by decide)).2⟩
  rw [h.1]
  decide

/-- C6: `Update(other)` copies exactly the local entries of `other` into the
receiver's local frame (`other` wins on collision), touches no other frame,
and copies nothing from `other`'s ancestors: lookup in the updated local
frame is `other`-local first, receiver-local second, and `Has` gains only
names of `other`'s local frame. -/
theorem claim_C6_update_local_only {α : Type} (a b : Context α)
    (hnd : (b.data.map Prod.fst).Nodup) (k : String) :
    (mapGet (a.update b).data k = optOr (mapGet b.data k) (mapGet a.data k))
    ∧ ((a.update b).parent = a.parent)
    ∧ ((a.update b).has k = ((mapGet b.data k).isSome || a.has k)) := by
  cases a with
  | mk ad ap =>
    have hf := mapGet_foldl_mapSet b.data hnd ad k
    refine ⟨hf, rfl, ?_⟩
    have hupd : (Context.mk ad ap).update b =
        Context.mk (List.foldl (fun acc kv => mapSet acc kv.1 kv.2) ad b.data) ap := rfl
    rw [hupd]
    cases ap with
    | none =>
      simp only [Context.has]
      rw [hf]
      cases hb : mapGet b.data k with
      | some v => simp [optOr]
      | none => cases had : mapGet ad k <;> simp [optOr, had]
    | some par =>
      simp only [Context.has]
      rw [hf]
      cases hb : mapGet b.data k with
      | some v => simp [optOr]
      | none => cases had : mapGet ad k <;> simp [optOr, had]

/-- Witness for C6: `b` has local `x = 10` and a parent holding `y = 20`;
after `a.Update(b)`, `x` is overwritten in `a` and `y` is still absent. -/
theorem claim_C6_witness :
    (mapGet ((Context.mk [("x", (1 : Nat)), ("z", 2)] none).update
        (Context.mk [("x", 10)] (some (Context.mk [("y", 20)] none)))).data "x" = some 10)
    ∧ (((Context.mk [("x", (1 : Nat)), ("z", 2)] none).update
        (Context.mk [("x", 10)] (some (Context.mk [("y", 20)] none)))).has "y" = false) := by
  have hx := claim_C6_update_local_only
    (Context.mk [("x", (1 : Nat)), ("z", 2)] none)
    (Context.mk [("x", 10)] (some (Context.mk [("y", 20)] none))) (by decide) "x"
  have hy := claim_C6_update_local_only
    (Context.mk [("x", (1 : Nat)), ("z", 2)] none)
    (Context.mk [("x", 10)] (some (Context.mk [("y", 20)] none))) (by decide) "y"
  constructor
  · rw [hx.1]; decide
  · rw [hy.2.2]; decide


/-- C7: registry override discipline for all three registries (filters,
statement-tag handlers, tests): `Register` fails and leaves the registry
unchanged on a duplicate name and otherwise adds the binding; `Replace`
fails and leaves the registry unchanged on an unknown name and otherwise
rebinds it so lookups return the new value; `Update` is a total merge in
which `other` wins on collision. -/
theorem claim_C7_registry_discipline {φ σ τ : Type}
    (fs : FilterSet φ) (ss : StatementSet σ) (ts : TestSet τ)
    (n k : String) (f : φ) (s : σ) (t : τ)
    (ofs : FilterSet φ) (oss : StatementSet σ) (ots : TestSet τ)
    (hof : (ofs.map Prod.fst).Nodup) (hos : (oss.map Prod.fst).Nodup)
    (hot : (ots.map Prod.fst).Nodup) :
    ((fs.exists? n = true → (fs.register n f).1 = fs ∧ (fs.register n f).2.isSome)
    ∧ (fs.exists? n = false → fs.register n f = (mapSet fs n f, none)
        ∧ mapGet (fs.register n f).1 n = some f)
    ∧ (fs.exists? n = false → (fs.replace n f).1 = fs ∧ (fs.replace n f).2.isSome)
    ∧ (fs.exists? n = true → fs.replace n f = (mapSet fs n f, none)
        ∧ mapGet (fs.replace n f).1 n = some f)
    ∧ (mapGet (fs.update ofs) k = optOr (mapGet ofs k) (mapGet fs k)))
    ∧ ((ss.exists? n = true → (ss.register n s).1 = ss ∧ (ss.register n s).2.isSome)
    ∧ (ss.exists? n = false → ss.register n s = (mapSet ss n s, none)
        ∧ mapGet (ss.register n s).1 n = some s)
    ∧ (ss.exists? n = false → (ss.replace n s).1 = ss ∧ (ss.replace n s).2.isSome)
    ∧ (ss.exists? n = true → ss.replace n s = (mapSet ss n s, none)
        ∧ mapGet (ss.replace n s).1 n = some s)
    ∧ (mapGet (ss.update oss) k = optOr (mapGet oss k) (mapGet ss k)))
    ∧ ((ts.exists? n = true → (ts.register n t).1 = ts ∧ (ts.register n t).2.isSome)
    ∧ (ts.exists? n = false → ts.register n t = (mapSet ts n t, none)
        ∧ mapGet (ts.register n t).1 n = some t)
    ∧ (ts.exists? n = false → (ts.replace n t).1 = ts ∧ (ts.replace n t).2.isSome)
    ∧ (ts.exists? n = true → ts.replace n t = (mapSet ts n t, none)
        ∧ mapGet (ts.replace n t).1 n = some t)
    ∧ (mapGet (ts.update ots) k = optOr (mapGet ots k) (mapGet ts k))) := by
  refine ⟨⟨?_, ?_, ?_, ?_, ?_⟩, ⟨?_, ?_, ?_, ?_, ?_⟩, ⟨?_, ?_, ?_, ?_, ?_⟩⟩
  · intro h; simp [FilterSet.register, h]
  · intro h; simp [FilterSet.register, h, mapGet_mapSet_self]
  · intro h; simp [FilterSet.replace, h]
  · intro h; simp [FilterSet.replace, h, mapGet_mapSet_self]
  · exact mapGet_foldl_mapSet ofs hof fs k
  · intro h; simp [StatementSet.register, h]
  · intro h; simp [StatementSet.register, h, mapGet_mapSet_self]
  · intro h; simp [StatementSet.replace, h]
  · intro h; simp [StatementSet.replace, h, mapGet_mapSet_self]
  · exact mapGet_foldl_mapSet oss hos ss k
  · intro h; simp [TestSet.register, h]
  · intro h; simp [TestSet.register, h, mapGet_mapSet_self]
  · intro h; simp [TestSet.replace, h]
  · intro h; simp [TestSet.replace, h, mapGet_mapSet_self]
  · exact mapGet_foldl_mapSet ots hot ts k

/-- Witness for C7: over one-entry concrete registries, a duplicate
`Register("x", _)` fails and leaves the map intact, `Replace("x", 2)` after a
prior registration rebinds so lookup yields 2, `Replace` on the unregistered
`"y"` fails, and `Update` lets the other registry win on `"x"`. -/
theorem claim_C7_witness :
    ((FilterSet.register [("x", (1 : Nat))] "x" 2).1 = [("x", 1)]
      ∧ (FilterSet.register [("x", (1 : Nat))] "x" 2).2.isSome)
    ∧ (FilterSet.replace [("x", (1 : Nat))] "x" 2 = (mapSet [("x", 1)] "x" 2, none)
      ∧ mapGet (FilterSet.replace [("x", (1 : Nat))] "x" 2).1 "x" = some 2)
    ∧ ((FilterSet.replace [("x", (1 : Nat))] "y" 2).1 = [("x", 1)]
      ∧ (FilterSet.replace [("x", (1 : Nat))] "y" 2).2.isSome)
    ∧ (mapGet (FilterSet.update [("x", (1 : Nat))] [("x", 9)]) "x"
      = optOr (mapGet [("x", (9 : Nat))] "x") (mapGet [("x", (1 : Nat))] "x")) := by
  have h1 := claim_C7_registry_discipline [("x", (1 : Nat))]
    ([] : StatementSet Nat) ([] : TestSet Nat) "x" "x" 2 0 0 [("x", 9)] [] []
    (by decide) (by decide) (by decide)
  have h2 := claim_C7_registry_discipline [("x", (1 : Nat))]
    ([] : StatementSet Nat) ([] : TestSet Nat) "y" "x" 2 0 0 [] [] []
    (by decide) (by decide) (by decide)
  exact ⟨h1.1.1 (by decide), h1.1.2.2.2.1 (by decide), h2.1.2.2.1 (by decide),
    h1.1.2.2.2.2⟩


theorem writeValue_ok (cfg : Config) (v : Value) (n : OutputNode)
    (h : v.isError = false) :
    writeValue cfg v n =
      .ok (if cfg.autoEscape && v.isString && !v.safe then v.escaped else v.str) := by
  by_cases hp : (cfg.autoEscape && v.isString && !v.safe) = true
  · simp [writeValue, h, hp]
  · simp only [writeValue, h, Bool.false_eq_true, if_false]
    rw [if_neg hp, if_neg hp]

/-- C2: for an Output node with a condition: a condition evaluating to an
Error-tagged Value fails the visit with a wrapped error naming the
condition's source line and textual form; a non-error condition that is Nil
or not true, with no alternative on the node, writes nothing to the Output
sink and returns no error. -/
theorem claim_C2_output_condition (cfg : Config) (eval : Expr → Value)
    (n : OutputNode) (cond : Expr) (hc : n.condition = some cond) :
    ((eval cond).isError = true →
      visitOutput cfg eval n = .error (.conditionError cond.line cond.text (eval cond)))
    ∧ ((eval cond).isError = false →
      ((eval cond).isNil = true ∨ (eval cond).isTrue = false) →
      n.alternative = none →
      visitOutput cfg eval n = .ok "") := by
  constructor
  · intro he
    simp [visitOutput, hc, he]
  · intro he hnt halt
    rcases hnt with h1 | h1 <;> simp [visitOutput, hc, he, h1, halt]

/-- Witness for C2: an error-valued condition yields the wrapped condition
error with its line and text; a false condition with no alternative yields
an empty write and no error. -/
theorem claim_C2_witness :
    (visitOutput { id := 0, autoEscape := false }
        (fun _ => { isError := true, isNil := false, isTrue := false, isString := false,
                    safe := false, escaped := "", str := "bad" })
        { expression := { text := "x", line := 2 },
          condition := some { text := "cond", line := 3 }, alternative := none } =
      .error (.conditionError 3 "cond"
        { isError := true, isNil := false, isTrue := false, isString := false,
          safe := false, escaped := "", str := "bad" }))
    ∧ (visitOutput { id := 0, autoEscape := false }
        (fun _ => { isError := false, isNil := false, isTrue := false, isString := false,
                    safe := false, escaped := "", str := "f" })
        { expression := { text := "x", line := 2 },
          condition := some { text := "cond", line := 3 }, alternative := none } =
      .ok "") := by
  constructor
  · exact (claim_C2_output_condition { id := 0, autoEscape := false }
      (fun _ => { isError := true, isNil := false, isTrue := false, isString := false,
                  safe := false, escaped := "", str := "bad" })
      { expression := { text := "x", line := 2 },
        condition := some { text := "cond", line := 3 }, alternative := none }
      { text := "cond", line := 3 } rfl).1 rfl
  · exact (claim_C2_output_condition { id := 0, autoEscape := false }
      (fun _ => { isError := false, isNil := false, isTrue := false, isString := false,
                  safe := false, escaped := "", str := "f" })
      { expression := { text := "x", line := 2 },
        condition := some { text := "cond", line := 3 }, alternative := none }
      { text := "cond", line := 3 } rfl).2 rfl (Or.inr rfl) rfl

/-- C3: when the chosen expression of an Output node evaluates to a non-error
Value, the visit writes the value's `Escaped()` form exactly when autoescaping
is on AND the value is a string AND it is not marked safe, and its raw
`String()` form in every other case. -/
theorem claim_C3_autoescape (cfg : Config) (eval : Expr → Value) (n : OutputNode)
    (e : Expr) (hch : chosenExpr eval n = some e) (hne : (eval e).isError = false) :
    visitOutput cfg eval n =
      .ok (if cfg.autoEscape && (eval e).isString && !(eval e).safe
           then (eval e).escaped else (eval e).str) := by
  cases hcond : n.condition with
  | none =>
    simp only [chosenExpr, hcond, Option.some.injEq] at hch
    subst hch
    simp only [visitOutput, hcond]
    exact writeValue_ok cfg _ n hne
  | some cond =>
    cases herr : (eval cond).isError with
    | true => simp [chosenExpr, hcond, herr] at hch
    | false =>
      cases hNil : (eval cond).isNil with
      | false =>
        cases hTrue : (eval cond).isTrue with
        | true =>
          simp only [chosenExpr, hcond, herr, hNil, hTrue, Bool.not_false,
            Bool.and_self, if_true, Bool.false_eq_true, if_false,
            Option.some.injEq] at hch
          subst hch
          simp only [visitOutput, hcond, herr, hNil, hTrue, Bool.not_false,
            Bool.and_self, if_true, Bool.false_eq_true, if_false]
          exact writeValue_ok cfg _ n hne
        | false =>
          cases halt : n.alternative with
          | none => simp [chosenExpr, hcond, herr, hNil, hTrue, halt] at hch
          | some alt =>
            simp only [chosenExpr, hcond, herr, hNil, hTrue, halt, Bool.not_false,
              Bool.and_false, Bool.false_eq_true, if_false, Bool.or_true, if_true,
              Option.some.injEq] at hch
            subst hch
            simp only [visitOutput, hcond, herr, hNil, hTrue, halt, Bool.not_false,
              Bool.and_false, Bool.false_eq_true, if_false, Bool.or_true, if_true]
            exact writeValue_ok cfg _ n hne
      | true =>
        cases halt : n.alternative with
        | none => simp [chosenExpr, hcond, herr, hNil, halt] at hch
        | some alt =>
          simp only [chosenExpr, hcond, herr, hNil, halt, Bool.not_true,
            Bool.false_and, Bool.false_eq_true, if_false, Bool.true_or, if_true,
            Option.some.injEq] at hch
          subst hch
          simp only [visitOutput, hcond, herr, hNil, halt, Bool.not_true,
            Bool.false_and, Bool.false_eq_true, if_false, Bool.true_or, if_true]
          exact writeValue_ok cfg _ n hne

/-- Witness for C3: with autoescaping on, the unsafe string `<b>` renders as
its escaped form, and the same value marked safe renders literally. -/
theorem claim_C3_witness :
    (visitOutput { id := 0, autoEscape := true }
        (fun _ => { isError := false, isNil := false, isTrue := true, isString := true,
                    safe := false, escaped := "&lt;b&gt;", str := "<b>" })
        { expression := { text := "v", line := 1 }, condition := none,
          alternative := none } = .ok "&lt;b&gt;")
    ∧ (visitOutput { id := 0, autoEscape := true }
        (fun _ => { isError := false, isNil := false, isTrue := true, isString := true,
                    safe := true, escaped := "&lt;b&gt;", str := "<b>" })
        { expression := { text := "v", line := 1 }, condition := none,
          alternative := none } = .ok "<b>") := by
  constructor
  · have h := claim_C3_autoescape { id := 0, autoEscape := true }
      (fun _ => { isError := false, isNil := false, isTrue := true, isString := true,
                  safe := false, escaped := "&lt;b&gt;", str := "<b>" })
      { expression := { text := "v", line := 1 }, condition := none,
        alternative := none } { text := "v", line := 1 } rfl rfl
    simpa using h
  · have h := claim_C3_autoescape { id := 0, autoEscape := true }
      (fun _ => { isError := false, isNil := false, isTrue := true, isString := true,
                  safe := true, escaped := "&lt;b&gt;", str := "<b>" })
      { expression := { text := "v", line := 1 }, condition := none,
        alternative := none } { text := "v", line := 1 } rfl rfl
    simpa using h


/-- C9: `Renderer.Inherit` deep-clones the configuration (a distinct object
with equal settings, so mutating the sub-renderer's configuration cannot
touch the parent's), forks the Context as a fresh child via
`Context.Inherit`, and shares the filter/statement/test registries, the
Output sink, the Template, the root node and the Loader of the receiver. -/
theorem claim_C9_renderer_inherit (r : Renderer) (fresh : Nat)
    (hf : fresh ≠ r.config.id) :
    ((r.inheritR fresh).config.id ≠ r.config.id)
    ∧ ((r.inheritR fresh).config.autoEscape = r.config.autoEscape)
    ∧ ((r.inheritR fresh).environment.context = r.environment.context.inherit)
    ∧ ((r.inheritR fresh).environment.context.parent = some r.environment.context)
    ∧ ((r.inheritR fresh).environment.context.data = [])
    ∧ ((r.inheritR fresh).environment.filters = r.environment.filters)
    ∧ ((r.inheritR fresh).environment.statements = r.environment.statements)
    ∧ ((r.inheritR fresh).environment.tests = r.environment.tests)
    ∧ ((r.inheritR fresh).output = r.output)
    ∧ ((r.inheritR fresh).template = r.template)
    ∧ ((r.inheritR fresh).rootNode = r.rootNode)
    ∧ ((r.inheritR fresh).loader = r.loader) :=
  ⟨hf, rfl, rfl, rfl, rfl, rfl, rfl, rfl, rfl, rfl, rfl, rfl⟩

/-- Witness for C9 at the fixture renderer with fresh configuration
identity 7. -/
theorem claim_C9_witness :
    ((rendererFx.inheritR 7).config.id ≠ rendererFx.config.id)
    ∧ ((rendererFx.inheritR 7).environment.context.parent =
        some rendererFx.environment.context)
    ∧ ((rendererFx.inheritR 7).output = rendererFx.output) := by
  have h := claim_C9_renderer_inherit rendererFx 7 (by decide)
  exact ⟨h.1, h.2.2.2.1, h.2.2.2.2.2.2.2.2.1⟩

/-- C10: `NewRenderer` mutates the caller-supplied Environment: after
construction its active Context carries a binding of `"self"` to the Self
wrapper of the new renderer, every other binding of that Context's local
frame is unchanged, its parent chain is untouched, and the rest of the
Environment (the three registries) is passed through unmodified. -/
theorem claim_C10_new_renderer_self (env : Environment) (out : Nat) (cfg : Config)
    (loader : Nat) (tmpl : Template) (fresh : Nat) :
    (mapGet (NewRenderer env out cfg loader tmpl fresh).environment.context.data "self" =
      some CtxVal.selfRef)
    ∧ ((NewRenderer env out cfg loader tmpl fresh).environment.context.get "self" =
      some CtxVal.selfRef)
    ∧ (∀ k, k ≠ "self" →
        mapGet (NewRenderer env out cfg loader tmpl fresh).environment.context.data k =
          mapGet env.context.data k)
    ∧ ((NewRenderer env out cfg loader tmpl fresh).environment.context.parent =
        env.context.parent)
    ∧ ((NewRenderer env out cfg loader tmpl fresh).environment.filters = env.filters)
    ∧ ((NewRenderer env out cfg loader tmpl fresh).environment.statements =
        env.statements)
    ∧ ((NewRenderer env out cfg loader tmpl fresh).environment.tests = env.tests)
    ∧ ((NewRenderer env out cfg loader tmpl fresh).config = cfg.inheritCfg fresh)
    ∧ ((NewRenderer env out cfg loader tmpl fresh).loader = loader)
    ∧ ((NewRenderer env out cfg loader tmpl fresh).output = out) := by
  have hctx : (NewRenderer env out cfg loader tmpl fresh).environment.context =
      env.context.set "self" CtxVal.selfRef := rfl
  refine ⟨?_, ?_, ?_, ?_, rfl, rfl, rfl, rfl, rfl, rfl⟩
  · rw [hctx, Context.data_set]
    exact mapGet_mapSet_self _ _ _
  · rw [hctx]
    exact Context.get_set_self _ _ _
  · intro k hk
    rw [hctx, Context.data_set]
    exact mapGet_mapSet_ne _ _ _ _ hk
  · rw [hctx]
    exact Context.parent_set _ _ _

/-- Witness for C10 at a concrete environment holding one binding `x`: after
`NewRenderer`, `"self"` is bound and `x` still resolves to its old value. -/
theorem claim_C10_witness :
    (mapGet (NewRenderer
        { filters := [], statements := [], tests := [],
          context := .mk [("x", CtxVal.base 1)] none }
        0 { id := 0, autoEscape := false } 0 tplFx 5).environment.context.data "self" =
      some CtxVal.selfRef)
    ∧ (mapGet (NewRenderer
        { filters := [], statements := [], tests := [],
          context := .mk [("x", CtxVal.base 1)] none }
        0 { id := 0, autoEscape := false } 0 tplFx 5).environment.context.data "x" =
      mapGet (Context.mk [("x", CtxVal.base 1)] none).data "x") := by
  have h := claim_C10_new_renderer_self
    { filters := [], statements := [], tests := [],
      context := .mk [("x", CtxVal.base 1)] none }
    0 { id := 0, autoEscape := false } 0 tplFx 5
  exact ⟨h.1, h.2.2.1 "x" (by decide)⟩


theorem wrapMacros_map_fst (w : ImportWorld) :
    (l : List (String × Nat)) → (ms : List (String × Nat)) →
    wrapMacros w l = .ok ms → ms.map Prod.fst = l.map Prod.fst
  | [], ms, h => by
    simp only [wrapMacros] at h
    injection h with h
    subst h
    rfl
  | (name, node) :: rest, ms, h => by
    simp only [wrapMacros] at h
    cases hw : w.macroNodeToFunc (some node) with
    | error e =>
      simp only [hw] at h
      exact Except.noConfusion h
    | ok fn =>
      simp only [hw] at h
      cases hrest : wrapMacros w rest with
      | error e =>
        simp only [hrest] at h
        exact Except.noConfusion h
      | ok msr =>
        simp only [hrest] at h
        injection h with h
        subst h
        simp [wrapMacros_map_fst w rest msr hrest]

theorem fromImportLoop_unbound (w : ImportWorld) (imported : List (String × Nat)) :
    (l : List (String × String)) → (ctx : Context CtxVal) → (k : String) →
    k ∉ l.map Prod.fst →
    mapGet (fromImportLoop w imported l ctx).2.data k = mapGet ctx.data k
  | [], ctx, k, _ => rfl
  | (al, nm) :: rest, ctx, k, hk => by
    simp only [List.map_cons, List.mem_cons] at hk
    push_neg at hk
    simp only [fromImportLoop]
    cases hw : w.macroNodeToFunc (mapGet imported nm) with
    | error e => rfl
    | ok fn =>
      rw [fromImportLoop_unbound w imported rest (ctx.set al (.macroFn fn)) k hk.2,
        Context.data_set, mapGet_mapSet_ne _ _ _ _ hk.1]

theorem fromImportLoop_parent (w : ImportWorld) (imported : List (String × Nat)) :
    (l : List (String × String)) → (ctx : Context CtxVal) →
    (fromImportLoop w imported l ctx).2.parent = ctx.parent
  | [], ctx => rfl
  | (al, nm) :: rest, ctx => by
    simp only [fromImportLoop]
    cases hw : w.macroNodeToFunc (mapGet imported nm) with
    | error e => rfl
    | ok fn =>
      rw [fromImportLoop_parent w imported rest (ctx.set al (.macroFn fn)),
        Context.parent_set]

theorem fromImportLoop_bound (w : ImportWorld) (imported : List (String × Nat)) :
    (l : List (String × String)) → (ctx : Context CtxVal) →
    (l.map Prod.fst).Nodup → (fromImportLoop w imported l ctx).1 = none →
    ∀ al nm, (al, nm) ∈ l → ∃ fn,
      w.macroNodeToFunc (mapGet imported nm) = .ok fn ∧
      mapGet (fromImportLoop w imported l ctx).2.data al = some (.macroFn fn)
  | [], ctx, _, _ => by
    intro al nm h
    cases h
  | (a0, n0) :: rest, ctx, hnd, hok => by
    simp only [List.map_cons, List.nodup_cons] at hnd
    intro al nm hmem
    simp only [fromImportLoop] at hok ⊢
    cases hw : w.macroNodeToFunc (mapGet imported n0) with
    | error e =>
      simp only [hw] at hok
      exact Option.noConfusion hok
    | ok fn0 =>
      simp only [hw] at hok ⊢
      rcases List.mem_cons.mp hmem with heq | hrest
      · rw [Prod.mk.injEq] at heq
        obtain ⟨rfl, rfl⟩ := heq
        refine ⟨fn0, hw, ?_⟩
        rw [fromImportLoop_unbound w imported rest _ al hnd.1, Context.data_set,
          mapGet_mapSet_self]
      · exact fromImportLoop_bound w imported rest (ctx.set a0 (.macroFn fn0))
          hnd.2 hok al nm hrest

/-- C1 (amended): `ImportStmt.Execute` applies no bindings whenever it
returns an error, in every phase; `FromImportStmt.Execute` applies no
bindings when filename evaluation, loader derivation, or template loading
fails — but a macro-wrap failure may leave the aliases processed before the
failing one bound (see the counterexample). -/
theorem claim_C1_import_atomicity (w : ImportWorld) (stmtI : ImportStmt)
    (stmtF : FromImportStmt) (r : Renderer) :
    ((ImportStmt.execute w stmtI r).1.isSome = true →
      (ImportStmt.execute w stmtI r).2 = r.environment.context)
    ∧ ((w.eval stmtF.filenameExpression).isError = true →
      FromImportStmt.execute w stmtF r =
        (some (.filenameError (w.eval stmtF.filenameExpression)),
          r.environment.context))
    ∧ (∀ e, (w.eval stmtF.filenameExpression).isError = false →
      w.loaderInherit r.loader (w.eval stmtF.filenameExpression).str = .error e →
      FromImportStmt.execute w stmtF r =
        (some (.loaderError (w.eval stmtF.filenameExpression).str),
          r.environment.context))
    ∧ (∀ ld e, (w.eval stmtF.filenameExpression).isError = false →
      w.loaderInherit r.loader (w.eval stmtF.filenameExpression).str = .ok ld →
      w.newTemplate (w.eval stmtF.filenameExpression).str r.config ld = .error e →
      FromImportStmt.execute w stmtF r =
        (some (.templateError (w.eval stmtF.filenameExpression).str e),
          r.environment.context)) := by
  refine ⟨?_, ?_, ?_, ?_⟩
  · intro hs
    by_cases he : (w.eval stmtI.filenameExpression).isError = true
    · simp [ImportStmt.execute, he]
    · simp only [Bool.not_eq_true] at he
      cases hl : w.loaderInherit r.loader (w.eval stmtI.filenameExpression).str with
      | error e => simp [ImportStmt.execute, he, hl]
      | ok ld =>
        cases ht : w.newTemplate (w.eval stmtI.filenameExpression).str r.config ld with
        | error e => simp [ImportStmt.execute, he, hl, ht]
        | ok tpl =>
          cases hm : wrapMacros w tpl.macros with
          | error ne => simp [ImportStmt.execute, he, hl, ht, hm]
          | ok ms => simp [ImportStmt.execute, he, hl, ht, hm] at hs
  · intro he
    simp [FromImportStmt.execute, he]
  · intro e he hl
    simp [FromImportStmt.execute, he, hl]
  · intro ld e he hl ht
    simp [FromImportStmt.execute, he, hl, ht]

/-- Witness for C1: with an error-valued filename both statements fail in the
first phase and leave the fixture renderer's Context exactly as it was. -/
theorem claim_C1_witness :
    ((ImportStmt.execute errWorld impStmtFx rendererFx).2 =
      rendererFx.environment.context)
    ∧ (FromImportStmt.execute errWorld fromStmtFx rendererFx =
      (some (.filenameError (errWorld.eval fromStmtFx.filenameExpression)),
        rendererFx.environment.context)) := by
  have h := claim_C1_import_atomicity errWorld impStmtFx fromStmtFx rendererFx
  exact ⟨h.1 rfl, h.2.1 rfl⟩

/-- C1 counterexample: a `FromImportStmt` execution that returns an error yet
has already changed the Context's local frame. The template has macros `m1`
and `m2`; wrapping `m1` succeeds, so its alias `a` is bound, then wrapping
`m2` fails and Execute returns the error with `a` still bound — the claim's
"no partial binding on failure" does not hold for FromImportStmt. -/
theorem claim_C1_counterexample :
    ((FromImportStmt.execute cexWorld fromStmtCex rendererFx).1.isSome = true)
    ∧ (mapGet rendererFx.environment.context.data "a" = none)
    ∧ (mapGet (FromImportStmt.execute cexWorld fromStmtCex rendererFx).2.data "a" =
      some (CtxVal.macroFn 10)) := by
  refine ⟨?_, ?_, ?_⟩ <;> decide

/-- C8: on success, `ImportStmt` binds exactly its alias in the current
Context, to a table holding one wrapped callable per macro of the loaded
template (same names), and changes no other local binding; on success,
`FromImportStmt` binds each requested macro under its (possibly aliased)
name and changes no binding outside its alias table — in particular, an
aliased macro's original name is not bound by the statement. -/
theorem claim_C8_import_bindings (w : ImportWorld) (stmtI : ImportStmt)
    (stmtF : FromImportStmt) (r : Renderer) (ld ld2 : Nat) (tpl tpl2 : Template)
    (ms : List (String × Nat))
    (hie : (w.eval stmtI.filenameExpression).isError = false)
    (hil : w.loaderInherit r.loader (w.eval stmtI.filenameExpression).str = .ok ld)
    (hit : w.newTemplate (w.eval stmtI.filenameExpression).str r.config ld = .ok tpl)
    (hiw : wrapMacros w tpl.macros = .ok ms)
    (hfe : (w.eval stmtF.filenameExpression).isError = false)
    (hfl : w.loaderInherit r.loader (w.eval stmtF.filenameExpression).str = .ok ld2)
    (hft : w.newTemplate (w.eval stmtF.filenameExpression).str r.config ld2 = .ok tpl2)
    (hnd : (stmtF.asMap.map Prod.fst).Nodup)
    (hfok : (FromImportStmt.execute w stmtF r).1 = none) :
    (ImportStmt.execute w stmtI r =
      (none, r.environment.context.set stmtI.asName (.macroTable ms)))
    ∧ (ms.map Prod.fst = tpl.macros.map Prod.fst)
    ∧ (mapGet (ImportStmt.execute w stmtI r).2.data stmtI.asName =
      some (.macroTable ms))
    ∧ (∀ k, k ≠ stmtI.asName →
      mapGet (ImportStmt.execute w stmtI r).2.data k =
        mapGet r.environment.context.data k)
    ∧ (∀ k, k ∉ stmtF.asMap.map Prod.fst →
      mapGet (FromImportStmt.execute w stmtF r).2.data k =
        mapGet r.environment.context.data k)
    ∧ ((FromImportStmt.execute w stmtF r).2.parent = r.environment.context.parent)
    ∧ (∀ al nm, (al, nm) ∈ stmtF.asMap → ∃ fn,
      w.macroNodeToFunc (mapGet tpl2.macros nm) = .ok fn ∧
      mapGet (FromImportStmt.execute w stmtF r).2.data al = some (.macroFn fn)) := by
  have hI : ImportStmt.execute w stmtI r =
      (none, r.environment.context.set stmtI.asName (.macroTable ms)) := by
    simp [ImportStmt.execute, hie, hil, hit, hiw]
  have hF : FromImportStmt.execute w stmtF r =
      fromImportLoop w tpl2.macros stmtF.asMap r.environment.context := by
    simp [FromImportStmt.execute, hfe, hfl, hft]
  rw [hF] at hfok
  refine ⟨hI, wrapMacros_map_fst w tpl.macros ms hiw, ?_, ?_, ?_, ?_, ?_⟩
  · rw [hI, Context.data_set]
    exact mapGet_mapSet_self _ _ _
  · intro k hk
    rw [hI, Context.data_set]
    exact mapGet_mapSet_ne _ _ _ _ hk
  · intro k hk
    rw [hF]
    exact fromImportLoop_unbound w tpl2.macros stmtF.asMap
      r.environment.context k hk
  · rw [hF]
    exact fromImportLoop_parent w tpl2.macros stmtF.asMap r.environment.context
  · intro al nm hmem
    rw [hF]
    exact fromImportLoop_bound w tpl2.macros stmtF.asMap r.environment.context
      hnd hfok al nm hmem

/-- Witness for C8: importing the fixture library as `L` binds exactly `L` to
the wrapped macro table, and `from "lib" import foo as bar` leaves `foo`
unbound. -/
theorem claim_C8_witness :
    (ImportStmt.execute okWorld impStmtFx rendererFx =
      (none, rendererFx.environment.context.set "L" (.macroTable [("foo", 107)])))
    ∧ (mapGet (FromImportStmt.execute okWorld fromStmtFx rendererFx).2.data "foo" =
      mapGet rendererFx.environment.context.data "foo") := by
  have h := claim_C8_import_bindings okWorld impStmtFx fromStmtFx rendererFx
    0 0 tplFx tplFx [("foo", 107)] rfl rfl rfl rfl rfl rfl rfl (by decide) rfl
  exact ⟨h.1, h.2.2.2.2.1 "foo" (by decide)⟩


end Gonja
